import Mathlib

/-!
Shallow embedding of the process-lifecycle and log-streaming core of the
LocalServe repository.  The repository contains two near-duplicate drafts of
the same program:

* the modular draft: `utils.py`, `server_manager.py`, `logger_thread.py`,
  `gui.py` — embedded below under the namespaces `Utils`, `ServerManager`,
  `LoggerThread` and `Gui`;
* the monolithic draft: `http_file_server_gui.py` — embedded under the
  namespace `HFS`.

Operating-system effects are modelled explicitly: the bindability of a port
is a parameter `free : Nat → Bool`; whether `subprocess.Popen` succeeds is a
parameter `spawnOk : Bool`; the child process is a record `Proc` carrying the
port it binds, whether it is still alive, whether it exits within the grace
period after a terminate signal, and its exit code.  Side effects performed
by the code (spawning, terminating, killing, signalling and joining the
logger thread, discarding handles, appending log lines) are recorded as an
explicit trace of `Act` values, and an exception escaping a Python function
is modelled as a `some`-valued error component of the result.
-/

/-- Source tag of a log event: child stdout, child stderr, or a synthetic
system message. -/
inductive Tag
  | OUT
  | ERR
  | SYS
deriving DecidableEq

/-- A tagged line of output, as placed on the shared queue. -/
abbrev Event := Tag × String

/-- One item readable from a captured output stream: either a text line or an
I/O fault raised by the read call.  An empty list models end-of-stream
(`readline` returning the empty string). -/
inductive Rd
  | line (s : String)
  | fail (e : String)
deriving DecidableEq

/-- Python's `str.isspace` characters relevant to `str.strip()`. -/
def pySpace (c : Char) : Bool :=
  c = ' ' || c = '\t' || c = '\n' || c = '\r' || c = Char.ofNat 11 || c = Char.ofNat 12

/-- Python `line.strip()`: remove leading and trailing whitespace. -/
def pyStrip (s : String) : String :=
  String.mk (((s.data.dropWhile pySpace).reverse.dropWhile pySpace).reverse)

/-- Python `line.rstrip("\n")`: remove every trailing newline character. -/
def rstripNl (s : String) : String :=
  String.mk ((s.data.reverse.dropWhile (fun c => c = '\n')).reverse)

/-- The end-of-run drain of one stream (`for line in stream:` in both
drafts): every remaining line is enqueued with the given tag; a read fault
aborts the iteration, the fault escaping as the second component. -/
def drainStream (tag : Tag) (strip : String → String) :
    List Rd → List Event × Option String
  | [] => ([], none)
  | Rd.fail e :: _ => ([], some e)
  | Rd.line s :: rest =>
      let r := drainStream tag strip rest
      ((tag, strip s) :: r.1, r.2)

/-- Drain what remains of stdout, then of stderr (the order used by both
drafts after the child has exited).  A fault while draining stdout skips the
stderr drain, mirroring exception propagation. -/
def finalDrain (strip : String → String) (outs errs : List Rd) :
    List Event × Option String :=
  let o := drainStream Tag.OUT strip outs
  match o.2 with
  | some e => (o.1, some e)
  | none =>
      let r := drainStream Tag.ERR strip errs
      (o.1 ++ r.1, r.2)

/-- One iteration of the relay loop body shared by both drafts: read at most
one line from stdout (enqueued with tag `OUT`), then at most one line from
stderr (tag `ERR`).  A read fault returns the events enqueued so far in this
iteration together with the fault. -/
def readPair (strip : String → String) (outs errs : List Rd) :
    Except (List Event × String) (List Event × List Rd × List Rd) :=
  match outs with
  | Rd.fail e :: _ => Except.error ([], e)
  | _ =>
      let o : List Event × List Rd :=
        match outs with
        | Rd.line s :: rest => ([(Tag.OUT, strip s)], rest)
        | _ => ([], outs)
      match errs with
      | Rd.fail e :: _ => Except.error (o.1, e)
      | _ =>
          let r : List Event × List Rd :=
            match errs with
            | Rd.line s :: rest => ([(Tag.ERR, strip s)], rest)
            | _ => ([], errs)
          Except.ok (o.1 ++ r.1, o.2, r.2)

namespace LoggerThread

/-- Embedding of `logger_thread.ProcessLogger.run`: the loop checks the stop event and
`poll()` first, then reads one line from each stream; after the loop it
drains both streams.  The fuel `k` is the number of loop iterations executed
before the break condition (child exited, or stop requested) is observed.
Lines are enqueued as `line.strip()`.  The function has no exception
handler, so a read fault escapes as the `some`-valued second component and
the final drain is skipped. -/
def run : Nat → List Rd → List Rd → List Event × Option String
  | 0, outs, errs => finalDrain pyStrip outs errs
  | Nat.succ n, outs, errs =>
      match readPair pyStrip outs errs with
      | Except.error (evs, e) => (evs, some e)
      | Except.ok (evs, outs', errs') =>
          let res := run n outs' errs'
          (evs ++ res.1, res.2)

end LoggerThread

namespace HFS

/-- Embedding of `http_file_server_gui.ProcessLogger.run`, body of the `try` block: each
iteration reads one line from each stream (enqueued as `line.rstrip("\n")`),
then checks `poll()`; when the child is observed exited it drains both
streams and breaks.  Fuel `k` is the number of iterations before `poll()`
reports the child exited.  A read fault escapes as the second component. -/
def runRaw : Nat → List Rd → List Rd → List Event × Option String
  | 0, outs, errs =>
      match readPair rstripNl outs errs with
      | Except.error (evs, e) => (evs, some e)
      | Except.ok (evs, outs', errs') =>
          let d := finalDrain rstripNl outs' errs'
          (evs ++ d.1, d.2)
  | Nat.succ n, outs, errs =>
      match readPair rstripNl outs errs with
      | Except.error (evs, e) => (evs, some e)
      | Except.ok (evs, outs', errs') =>
          let res := runRaw n outs' errs'
          (evs ++ res.1, res.2)

/-- Embedding of `http_file_server_gui.ProcessLogger.run`, including its `except` clause:
any exception escaping the loop is converted into a single synthetic `SYS`
event and the worker terminates normally. -/
def run (k : Nat) (outs errs : List Rd) : List Event :=
  match runRaw k outs errs with
  | (acc, none) => acc
  | (acc, some e) => acc ++ [(Tag.SYS, "Logger thread exception: " ++ e)]

end HFS

/-- The `for port in range(a, b)` scan shared by both port finders: probe
`start`, `start+1`, … for `n` consecutive ports, returning the first one the
`free` probe accepts, `none` when the whole range is exhausted. -/
def scanPorts (free : Nat → Bool) : Nat → Nat → Option Nat
  | _, 0 => none
  | p, Nat.succ n => if free p then some p else scanPorts free (p + 1) n

namespace Utils

/-- Embedding of `utils.is_port_free`: a transient bind probe; the outcome is the
environment parameter `free`. -/
def is_port_free (free : Nat → Bool) (port : Nat) : Bool := free port

/-- Embedding of `utils.find_free_port`: `for port in range(start, 9000)`, return the
first free port, otherwise raise `RuntimeError`.  The upper bound is the
absolute constant 9000 regardless of `start`. -/
def find_free_port (free : Nat → Bool) (start : Nat) : Except String Nat :=
  match scanPorts free start (9000 - start) with
  | some p => Except.ok p
  | none => Except.error "No free ports found in range 8000–9000."

end Utils

namespace HFS

/-- Embedding of `http_file_server_gui.find_free_port`: `for p in range(start, start +
max_search)`, return the first free port, otherwise raise `RuntimeError`. -/
def find_free_port (free : Nat → Bool) (start max_search : Nat) :
    Except String Nat :=
  match scanPorts free start max_search with
  | some p => Except.ok p
  | none => Except.error ("No free port found starting at " ++ toString start)

end HFS

/-- A spawned child process (`subprocess.Popen` handle).  `port` is the port
passed on its command line, `alive` whether it is still running at the time
an operation observes it, `graceful` whether — if alive — it exits within
the grace period after a terminate signal, `exitCode` its exit code once
exited. -/
structure Proc where
  port : Nat
  alive : Bool
  graceful : Bool
  exitCode : Int
deriving DecidableEq

/-- The derived status shown by the GUI status label. -/
inductive Status
  | Stopped
  | Running (port : Nat)
deriving DecidableEq

/-- Handle of the relay worker thread; `stopRequested` is the state of its
`threading.Event` stop flag. -/
structure Logger where
  stopRequested : Bool
deriving DecidableEq

/-- An observable side effect performed by a lifecycle operation, recorded in
order of occurrence. -/
inductive Act
  | spawn (port : Nat)
  | terminate
  | kill
  | loggerStart
  | loggerStop
  | loggerJoin
  | clearProcess
  | clearLogger
  | log (s : String)
deriving DecidableEq

/-- Embedding of `server_manager.ServerManager`: owns at most one child process handle. -/
structure ServerManager where
  process : Option Proc
deriving DecidableEq

namespace ServerManager

/-- Embedding of `ServerManager.start_server`: if the requested port is not free it is
silently replaced by `find_free_port(8000)` (whose `RuntimeError`, if any,
propagates — only the `Popen` call is inside the `try`).  There is no guard
against an already-running process: a successful spawn overwrites
`self.process`.  On spawn failure the exception is caught, an error is
printed and `None` is returned, leaving `self.process` unchanged. -/
def start_server (free : Nat → Bool) (spawnOk graceful : Bool)
    (sm : ServerManager) (port : Nat) :
    Except String (ServerManager × Option Proc × List Act) :=
  match (if Utils.is_port_free free port then Except.ok port
         else Utils.find_free_port free 8000) with
  | Except.error e => Except.error e
  | Except.ok actualPort =>
      if spawnOk then
        let p : Proc :=
          { port := actualPort, alive := true, graceful := graceful, exitCode := 0 }
        Except.ok ({ process := some p }, some p, [Act.spawn actualPort])
      else
        Except.ok (sm, none, [])

/-- Embedding of `ServerManager.stop_server`: when a handle is present it calls
`terminate()` then `wait(timeout=2)`; if the child has not exited within the
timeout, `subprocess.TimeoutExpired` propagates out of the method, the
handle is left in place and no `kill()` is ever issued.  Only on a
successful wait is the handle cleared. -/
def stop_server (sm : ServerManager) : Option String × ServerManager × List Act :=
  match sm.process with
  | none => (none, sm, [])
  | some p =>
      if !p.alive || p.graceful then
        (none, { process := none }, [Act.terminate])
      else
        (some "TimeoutExpired", sm, [Act.terminate])

end ServerManager

/-- State of the modular draft's window (`gui.HttpServerGUI`) restricted to
the lifecycle fields. -/
structure Gui where
  manager : ServerManager
  logger_thread : Option Logger
  server_running : Bool
  status : Status
deriving DecidableEq

namespace Gui

/-- Embedding of `gui.HttpServerGUI._start_server`: validates the folder, delegates to
`ServerManager.start_server` (whose `RuntimeError` from the port scan would
propagate into the Qt slot), and on success sets the status label to the
*requested* port — even when the manager silently substituted another —
then creates and starts the relay thread. -/
def start_server (free : Nat → Bool) (spawnOk graceful folderValid : Bool)
    (g : Gui) (port : Nat) : Option String × Gui × List Act :=
  if folderValid = false then (none, g, [])
  else
    match ServerManager.start_server free spawnOk graceful g.manager port with
    | Except.error e => (some e, g, [])
    | Except.ok (m', none, acts) => (none, { g with manager := m' }, acts)
    | Except.ok (m', some _, acts) =>
        (none,
         { manager := m', logger_thread := some { stopRequested := false },
           server_running := true, status := Status.Running port },
         acts ++ [Act.log "[SYS] Server started", Act.loggerStart])

/-- Embedding of `gui.HttpServerGUI._stop_server`: calls `ServerManager.stop_server`
(whose `TimeoutExpired`, if raised, propagates, skipping the statements that
follow) and then updates the flags and status label.  It never signals or
joins the relay thread, and never clears `self.logger_thread`. -/
def stop_server (g : Gui) : Option String × Gui × List Act :=
  match ServerManager.stop_server g.manager with
  | (some e, m', acts) => (some e, { g with manager := m' }, acts)
  | (none, m', acts) =>
      (none,
       { g with manager := m', server_running := false, status := Status.Stopped },
       acts ++ [Act.log "[SYS] Server stopped."])

end Gui

/-- Display formatting used by both drain loops: `f"[{typ}] {line}"`. -/
def fmtEvent : Event → String
  | (Tag.OUT, l) => "[OUT] " ++ l
  | (Tag.ERR, l) => "[ERR] " ++ l
  | (Tag.SYS, l) => "[SYS] " ++ l

namespace Gui

/-- Embedding of `gui.HttpServerGUI._drain_log_queue`: empties the queue and appends each
event to the log view.  It performs no liveness check on the child process
and never changes the lifecycle state. -/
def drain_log_queue (g : Gui) (q : List Event) : Gui × List Act :=
  (g, q.map (fun e => Act.log (fmtEvent e)))

end Gui

/-- State of the monolithic draft's window
(`http_file_server_gui.HttpServerGUI`) restricted to the lifecycle fields. -/
structure HGui where
  process : Option Proc
  logger_thread : Option Logger
  server_running : Bool
  status : Status
deriving DecidableEq

namespace HFS

/-- Embedding of `http_file_server_gui.HttpServerGUI._stop_server`: a no-op when
`server_running` is false.  Otherwise, inside a `try` that swallows every
exception, it terminates an alive child, waits up to 3 seconds and kills it
on timeout, then logs; afterwards it signals the relay thread to stop and
joins it with a 1-second bound, and finally clears the process handle, the
logger handle, the running flag and the status label. -/
def stop_server (g : HGui) : HGui × List Act :=
  if g.server_running = false then (g, [])
  else
    let procActs : List Act :=
      match g.process with
      | some p =>
          if p.alive then
            if p.graceful then [Act.terminate] else [Act.terminate, Act.kill]
          else []
      | none => []
    let logActs : List Act :=
      match g.logger_thread with
      | some _ => [Act.loggerStop, Act.loggerJoin]
      | none => []
    ({ process := none, logger_thread := none, server_running := false,
       status := Status.Stopped },
     procActs ++ [Act.log "[SYS] Server process stopped.\n"] ++ logActs
       ++ [Act.clearProcess, Act.clearLogger])

/-- Embedding of `http_file_server_gui.HttpServerGUI._start_server`: returns immediately
when a session is already running; validates the folder; if the requested
port is busy it asks the user before substituting `find_free_port(8000)`
(declining, or the scan failing, aborts the start).  On a successful spawn
the status reports the port actually used, and only then is the relay
thread created and started.  On spawn failure the handle is cleared and the
method returns. -/
def start_server (free : Nat → Bool) (spawnOk userYes graceful folderValid : Bool)
    (g : HGui) (port : Nat) : HGui × List Act :=
  if g.server_running then (g, [])
  else if folderValid = false then (g, [])
  else
    let portRes : Option Nat :=
      if free port then some port
      else if userYes then
        match HFS.find_free_port free 8000 1000 with
        | Except.ok p => some p
        | Except.error _ => none
      else none
    match portRes with
    | none => (g, [])
    | some actualPort =>
        if spawnOk then
          let p : Proc :=
            { port := actualPort, alive := true, graceful := graceful, exitCode := 0 }
          ({ process := some p, logger_thread := some { stopRequested := false },
             server_running := true, status := Status.Running actualPort },
           [Act.spawn actualPort, Act.log "[SYS] Server started with PID",
            Act.loggerStart])
        else
          ({ g with process := none }, [])

/-- Embedding of `http_file_server_gui.HttpServerGUI._drain_log_queue`: empties the queue
into the log view, then — the per-tick liveness check — if a session is
marked running and `poll()` reports the child exited, logs a `SYS` event
with the exit code and drives the normal `_stop_server` teardown.  The
method is total: nothing is thrown into the polling loop. -/
def drain_log_queue (g : HGui) (q : List Event) : HGui × List Act :=
  let drainActs := q.map (fun e => Act.log (fmtEvent e))
  match g.server_running, g.process with
  | true, some p =>
      if p.alive then (g, drainActs)
      else
        let exitLog := Act.log ("[SYS] Server exited with code " ++ toString p.exitCode)
        let r := HFS.stop_server g
        (r.1, drainActs ++ [exitLog] ++ r.2)
  | _, _ => (g, drainActs)

end HFS

/-- An operation on the shared `queue.Queue`: a `put` by the relay worker or
a full drain by the GUI tick. -/
inductive QOp
  | enq (e : Event)
  | drain
deriving DecidableEq

/-- Execute a schedule of queue operations starting from queue contents `q`:
returns the final queue contents and the list of drained batches in
chronological order.  `put` appends (FIFO); a drain removes everything
currently queued. -/
def runOps : List QOp → List Event → List Event × List (List Event)
  | [], q => (q, [])
  | QOp.enq e :: rest, q => runOps rest (q ++ [e])
  | QOp.drain :: rest, q =>
      let r := runOps rest []
      (r.1, q :: r.2)

/-- The events enqueued by a schedule, in order. -/
def enqOf : List QOp → List Event
  | [] => []
  | QOp.enq e :: rest => e :: enqOf rest
  | QOp.drain :: rest => enqOf rest

/-- The subsequence of stdout-tagged texts of an event list. -/
def outFilter (es : List Event) : List String :=
  es.filterMap (fun e => match e with
    | (Tag.OUT, s) => some s
    | _ => none)

theorem runOps_join (ops : List QOp) :
    ∀ q : List Event,
      ((runOps ops q).2).flatten ++ (runOps ops q).1 = q ++ enqOf ops := by
  induction ops with
  | nil => intro q; simp [runOps, enqOf]
  | cons op rest ih =>
      intro q
      cases op with
      | enq e =>
          simp only [runOps, enqOf]
          rw [ih (q ++ [e])]
          simp
      | drain =>
          simp only [runOps, enqOf, List.flatten_cons]
          rw [List.append_assoc, ih []]
          simp

theorem scanPorts_some (free : Nat → Bool) :
    ∀ n start p : Nat, scanPorts free start n = some p →
      start ≤ p ∧ p < start + n ∧ free p = true ∧
        ∀ q, start ≤ q → q < p → free q = false := by
  intro n
  induction n with
  | zero => intro start p h; simp [scanPorts] at h
  | succ m ih =>
      intro start p h
      simp only [scanPorts] at h
      by_cases hf : free start = true
      · rw [if_pos hf] at h
        cases h
        exact ⟨Nat.le_refl _, by omega, hf, fun q h1 h2 => by omega⟩
      · have hf' : free start = false := by
          cases hfv : free start
          · rfl
          · exact absurd hfv hf
        rw [if_neg (by simp [hf'])] at h
        obtain ⟨h1, h2, h3, h4⟩ := ih (start + 1) p h
        refine ⟨by omega, by omega, h3, ?_⟩
        intro q hq1 hq2
        rcases Nat.eq_or_lt_of_le hq1 with heq | hlt
        · exact heq ▸ hf'
        · exact h4 q (by omega) hq2

theorem scanPorts_none (free : Nat → Bool) :
    ∀ n start : Nat, scanPorts free start n = none →
      ∀ p, start ≤ p → p < start + n → free p = false := by
  intro n
  induction n with
  | zero => intro start _ p h1 h2; omega
  | succ m ih =>
      intro start h p h1 h2
      simp only [scanPorts] at h
      by_cases hf : free start = true
      · rw [if_pos hf] at h; cases h
      · have hf' : free start = false := by
          cases hfv : free start
          · rfl
          · exact absurd hfv hf
        rw [if_neg (by simp [hf'])] at h
        rcases Nat.eq_or_lt_of_le h1 with heq | hlt
        · exact heq ▸ hf'
        · exact ih (start + 1) h p (by omega) (by omega)

/-- C7: for every start port, bind-probe environment and attempt budget
`max_search`, `find_free_port` scans `start, start+1, …,
start+max_search-1` in increasing order and returns the first (hence
smallest) free port in that range; it raises its no-free-port error exactly
when no port in the range is free. -/
theorem C7_find_free_port_first_free (free : Nat → Bool) (start max_search : Nat) :
    (∀ p, HFS.find_free_port free start max_search = Except.ok p →
        start ≤ p ∧ p < start + max_search ∧ free p = true ∧
          ∀ q, start ≤ q → q < p → free q = false)
  ∧ ((∃ e, HFS.find_free_port free start max_search = Except.error e) ↔
        ∀ p, start ≤ p → p < start + max_search → free p = false) := by
  constructor
  · intro p h
    unfold HFS.find_free_port at h
    cases hscan : scanPorts free start max_search with
    | none => rw [hscan] at h; cases h
    | some q =>
        rw [hscan] at h
        cases h
        exact scanPorts_some free max_search start p hscan
  · constructor
    · rintro ⟨e, h⟩
      unfold HFS.find_free_port at h
      cases hscan : scanPorts free start max_search with
      | none => exact scanPorts_none free max_search start hscan
      | some q => rw [hscan] at h; cases h
    · intro hall
      unfold HFS.find_free_port
      cases hscan : scanPorts free start max_search with
      | none => exact ⟨_, rfl⟩
      | some q =>
          obtain ⟨h1, h2, h3, _⟩ := scanPorts_some free max_search start q hscan
          rw [hall q h1 h2] at h3
          cases h3

theorem C7_witness :
    (8000 ≤ 8003 ∧ 8003 < 8000 + 10 ∧ (fun p => decide (p = 8003)) 8003 = true ∧
        ∀ q, 8000 ≤ q → q < 8003 → (fun p => decide (p = 8003)) q = false)
  ∧ ((∃ e, HFS.find_free_port (fun _ => false) 8000 5 = Except.error e) ↔
        ∀ p, 8000 ≤ p → p < 8000 + 5 → (fun _ => false : Nat → Bool) p = false) :=
  ⟨(C7_find_free_port_first_free (fun p => decide (p = 8003)) 8000 10).1 8003 rfl,
   (C7_find_free_port_first_free (fun _ => false) 8000 5).2⟩

/-- C10: `utils.find_free_port` caps its scan at the absolute constant 9000
regardless of `start`: for any `start ≥ 9000` it probes nothing and raises
its no-free-port error immediately, and it can never return a port `≥ 9000`
even when such ports are free. -/
theorem C10_find_free_port_capped (free : Nat → Bool) (start : Nat) :
    (9000 ≤ start →
        Utils.find_free_port free start =
          Except.error "No free ports found in range 8000–9000.")
  ∧ (∀ p, Utils.find_free_port free start = Except.ok p →
        start ≤ p ∧ p < 9000 ∧ free p = true) := by
  constructor
  · intro h
    unfold Utils.find_free_port
    have hz : 9000 - start = 0 := by omega
    rw [hz]
    rfl
  · intro p h
    unfold Utils.find_free_port at h
    cases hscan : scanPorts free start (9000 - start) with
    | none => rw [hscan] at h; cases h
    | some q =>
        rw [hscan] at h
        cases h
        obtain ⟨h1, h2, h3, _⟩ := scanPorts_some free (9000 - start) start p hscan
        exact ⟨h1, by omega, h3⟩

theorem C10_witness :
    (Utils.find_free_port (fun _ => true) 9500 =
        Except.error "No free ports found in range 8000–9000.")
  ∧ (9123 ≤ 9123 ∧ 9123 < 9000 ∧ (fun _ => true : Nat → Bool) 9123 = true →
        False) :=
  ⟨(C10_find_free_port_capped (fun _ => true) 9500).1 (by omega),
   fun h => by omega⟩

theorem drainStream_lines (tag : Tag) (strip : String → String) :
    ∀ ls : List String,
      drainStream tag strip (ls.map Rd.line) =
        (ls.map (fun s => (tag, strip s)), none) := by
  intro ls
  induction ls with
  | nil => rfl
  | cons s rest ih => simp [drainStream, ih]

theorem outFilter_append (a b : List Event) :
    outFilter (a ++ b) = outFilter a ++ outFilter b := by
  simp [outFilter, List.filterMap_append]

theorem outFilter_outMap (strip : String → String) (ls : List String) :
    outFilter (ls.map (fun s => (Tag.OUT, strip s))) = ls.map strip := by
  induction ls with
  | nil => rfl
  | cons s rest ih => simp [outFilter, List.filterMap_cons] at ih ⊢; exact ih

theorem outFilter_errMap (strip : String → String) (ls : List String) :
    outFilter (ls.map (fun s => (Tag.ERR, strip s))) = [] := by
  induction ls with
  | nil => rfl
  | cons s rest ih => simp [outFilter, List.filterMap_cons, ih]

theorem finalDrain_lines (strip : String → String) (outs errs : List String) :
    finalDrain strip (outs.map Rd.line) (errs.map Rd.line) =
      (outs.map (fun s => (Tag.OUT, strip s)) ++
         errs.map (fun s => (Tag.ERR, strip s)), none) := by
  simp [finalDrain, drainStream_lines]

theorem LoggerThread_run_lines :
    ∀ (k : Nat) (outs errs : List String),
      (LoggerThread.run k (outs.map Rd.line) (errs.map Rd.line)).2 = none ∧
      outFilter (LoggerThread.run k (outs.map Rd.line) (errs.map Rd.line)).1 =
        outs.map pyStrip := by
  intro k
  induction k with
  | zero =>
      intro outs errs
      simp [LoggerThread.run, finalDrain_lines, outFilter_append,
        outFilter_outMap, outFilter_errMap]
  | succ n ih =>
      intro outs errs
      cases outs with
      | nil =>
          cases errs with
          | nil =>
              simp only [LoggerThread.run, List.map_nil, readPair]
              have h := ih [] []
              simp only [List.map_nil] at h
              refine ⟨h.1, ?_⟩
              simp only [List.nil_append, h.2, List.map_nil]
          | cons e es =>
              simp only [LoggerThread.run, List.map_nil, List.map_cons, readPair]
              have h := ih [] es
              simp only [List.map_nil] at h
              refine ⟨h.1, ?_⟩
              rw [outFilter_append, h.2]
              simp [outFilter]
      | cons o os =>
          cases errs with
          | nil =>
              simp only [LoggerThread.run, List.map_nil, List.map_cons, readPair]
              have h := ih os []
              simp only [List.map_nil] at h
              refine ⟨h.1, ?_⟩
              rw [outFilter_append, h.2]
              simp [outFilter]
          | cons e es =>
              simp only [LoggerThread.run, List.map_cons, readPair]
              have h := ih os es
              refine ⟨h.1, ?_⟩
              rw [outFilter_append, h.2]
              simp [outFilter]

/-- C1: for a child whose stdout is the finite line sequence `outs` (and
stderr `errs`), the relay enqueues each stdout line exactly once with tag
`OUT`, in emission order, whatever iteration count `k` the loop performs
before observing the exit; no read fault escapes; and any drain schedule
whose enqueues are exactly the relay's output returns every event exactly
once, in order, across the sequence of drains (events still queued after the
last drain are the final queue contents, empty once a drain follows the last
enqueue). -/
theorem C1_stdout_lines_exactly_once (k : Nat) (outs errs : List String)
    (ops : List QOp)
    (henq : enqOf ops = (LoggerThread.run k (outs.map Rd.line) (errs.map Rd.line)).1) :
    (LoggerThread.run k (outs.map Rd.line) (errs.map Rd.line)).2 = none
  ∧ outFilter (LoggerThread.run k (outs.map Rd.line) (errs.map Rd.line)).1 =
      outs.map pyStrip
  ∧ ((runOps ops []).2).flatten ++ (runOps ops []).1 =
      (LoggerThread.run k (outs.map Rd.line) (errs.map Rd.line)).1 := by
  obtain ⟨h1, h2⟩ := LoggerThread_run_lines k outs errs
  refine ⟨h1, h2, ?_⟩
  rw [runOps_join ops []]
  simpa using henq

theorem C1_witness :
    (LoggerThread.run 1 (["a", "b"].map Rd.line) (["x"].map Rd.line)).2 = none
  ∧ outFilter (LoggerThread.run 1 (["a", "b"].map Rd.line) (["x"].map Rd.line)).1 =
      ["a", "b"].map pyStrip
  ∧ ((runOps [QOp.enq (Tag.OUT, "a"), QOp.enq (Tag.ERR, "x"),
        QOp.enq (Tag.OUT, "b"), QOp.drain] []).2).flatten ++
      (runOps [QOp.enq (Tag.OUT, "a"), QOp.enq (Tag.ERR, "x"),
        QOp.enq (Tag.OUT, "b"), QOp.drain] []).1 =
      (LoggerThread.run 1 (["a", "b"].map Rd.line) (["x"].map Rd.line)).1 :=
  C1_stdout_lines_exactly_once 1 ["a", "b"] ["x"]
    [QOp.enq (Tag.OUT, "a"), QOp.enq (Tag.ERR, "x"),
     QOp.enq (Tag.OUT, "b"), QOp.drain] (by decide)

theorem drainStream_tags (tag : Tag) (strip : String → String) :
    ∀ l : List Rd, ∀ ev ∈ (drainStream tag strip l).1, ev.1 = tag := by
  intro l
  induction l with
  | nil => intro ev h; simp [drainStream] at h
  | cons r rest ih =>
      intro ev h
      cases r with
      | fail e => simp [drainStream] at h
      | line s =>
          simp only [drainStream] at h
          rcases List.mem_cons.mp h with heq | hmem
          · simp [heq]
          · exact ih ev hmem

theorem finalDrain_noSys (strip : String → String) (outs errs : List Rd)
    (s : String) : (Tag.SYS, s) ∉ (finalDrain strip outs errs).1 := by
  intro hmem
  simp only [finalDrain] at hmem
  cases h : (drainStream Tag.OUT strip outs).2 with
  | some e =>
      rw [h] at hmem
      have := drainStream_tags Tag.OUT strip outs _ hmem
      simp at this
  | none =>
      rw [h] at hmem
      simp only at hmem
      rcases List.mem_append.mp hmem with h1 | h2
      · have := drainStream_tags Tag.OUT strip outs _ h1
        simp at this
      · have := drainStream_tags Tag.ERR strip errs _ h2
        simp at this

/-- The events produced by one loop iteration, whether it faulted or not. -/
def evsOf (x : Except (List Event × String) (List Event × List Rd × List Rd)) :
    List Event :=
  match x with
  | Except.error (evs, _) => evs
  | Except.ok (evs, _, _) => evs

theorem readPair_noSys (strip : String → String) (outs errs : List Rd)
    (s : String) : (Tag.SYS, s) ∉ evsOf (readPair strip outs errs) := by
  rcases outs with _ | ⟨s1 | e1, os⟩ <;> rcases errs with _ | ⟨s2 | e2, es⟩ <;>
    simp [readPair, evsOf]

theorem runRaw_noSys :
    ∀ (k : Nat) (outs errs : List Rd) (s : String),
      (Tag.SYS, s) ∉ (HFS.runRaw k outs errs).1 := by
  intro k
  induction k with
  | zero =>
      intro outs errs s hmem
      simp only [HFS.runRaw] at hmem
      cases h : readPair rstripNl outs errs with
      | error p =>
          obtain ⟨evs, e⟩ := p
          rw [h] at hmem
          simp only at hmem
          have := readPair_noSys rstripNl outs errs s
          rw [h] at this
          exact this hmem
      | ok p =>
          obtain ⟨evs, outs', errs'⟩ := p
          rw [h] at hmem
          simp only at hmem
          rcases List.mem_append.mp hmem with h1 | h2
          · have := readPair_noSys rstripNl outs errs s
            rw [h] at this
            exact this h1
          · exact finalDrain_noSys rstripNl outs' errs' s h2
  | succ n ih =>
      intro outs errs s hmem
      simp only [HFS.runRaw] at hmem
      cases h : readPair rstripNl outs errs with
      | error p =>
          obtain ⟨evs, e⟩ := p
          rw [h] at hmem
          simp only at hmem
          have := readPair_noSys rstripNl outs errs s
          rw [h] at this
          exact this hmem
      | ok p =>
          obtain ⟨evs, outs', errs'⟩ := p
          rw [h] at hmem
          simp only at hmem
          rcases List.mem_append.mp hmem with h1 | h2
          · have := readPair_noSys rstripNl outs errs s
            rw [h] at this
            exact this h1
          · exact ih outs' errs' s h2

/-- C8 counterexample: in `logger_thread.ProcessLogger.run` (the modular
draft, the code the claim cites) a read fault is NOT converted into a `SYS`
event — the run loop has no exception handler, so the fault propagates out
of `run` (modelled as the `some`-valued escape component) and no event at
all is enqueued for it. -/
theorem C8_cex_modular_relay_propagates :
    (LoggerThread.run 1 [Rd.fail "boom"] []).2 = some "boom"
  ∧ (LoggerThread.run 1 [Rd.fail "boom"] []).1 = [] := by decide

/-- C8 amended: the monolithic draft's relay
(`http_file_server_gui.ProcessLogger.run`) behaves as the claim states: its
loop body never enqueues a `SYS` event on its own, any fault escaping the
loop is converted into exactly one synthetic `SYS` event appended after the
events already enqueued, and a fault-free run propagates nothing; the
modular draft's `logger_thread.ProcessLogger.run` instead lets the fault
propagate out of its run loop with no `SYS` event. -/
theorem C8_amended_sys_event (k : Nat) (outs errs : List Rd) :
    (∀ s, (Tag.SYS, s) ∉ (HFS.runRaw k outs errs).1)
  ∧ (∀ e, (HFS.runRaw k outs errs).2 = some e →
      HFS.run k outs errs =
        (HFS.runRaw k outs errs).1 ++
          [(Tag.SYS, "Logger thread exception: " ++ e)])
  ∧ ((HFS.runRaw k outs errs).2 = none →
      HFS.run k outs errs = (HFS.runRaw k outs errs).1) := by
  refine ⟨fun s => runRaw_noSys k outs errs s, ?_, ?_⟩
  · intro e h
    rcases hsplit : HFS.runRaw k outs errs with ⟨acc, esc⟩
    rw [hsplit] at h
    simp only at h
    subst h
    simp [HFS.run, hsplit]
  · intro h
    rcases hsplit : HFS.runRaw k outs errs with ⟨acc, esc⟩
    rw [hsplit] at h
    simp only at h
    subst h
    simp [HFS.run, hsplit]

theorem C8_amended_witness :
    HFS.run 1 [Rd.fail "io error"] [] =
      (HFS.runRaw 1 [Rd.fail "io error"] []).1 ++
        [(Tag.SYS, "Logger thread exception: " ++ "io error")] :=
  (C8_amended_sys_event 1 [Rd.fail "io error"] []).2.1 "io error" (by decide)

/-- C2 counterexample: with port 8080 occupied and port 8000 free,
`ServerManager.start_server` silently substitutes port 8000 while
`gui._start_server` reports `Running(8080)` — the child is NOT launched on
the requested port and the reported status does not match the port the
child actually binds. -/
theorem C2_cex_silent_substitution :
    ((Gui.start_server (fun p => decide (p = 8000)) true true true
        { manager := { process := none }, logger_thread := none,
          server_running := false, status := Status.Stopped } 8080).2.1.status =
      Status.Running 8080)
  ∧ ((Gui.start_server (fun p => decide (p = 8000)) true true true
        { manager := { process := none }, logger_thread := none,
          server_running := false, status := Status.Stopped } 8080).2.1.manager.process =
      some { port := 8000, alive := true, graceful := true, exitCode := 0 })
  ∧ (8000 : Nat) ≠ 8080 := by decide

/-- C2 amended: when the requested port is free and the spawn succeeds, the
child is launched on exactly the requested port and the status reports
`Running(port)`; but when the requested port is occupied,
`ServerManager.start_server` silently substitutes the first free port from
8000 upward while the GUI still reports `Running` with the originally
requested port. -/
theorem C2_amended_exact_port_when_free (free : Nat → Bool) (graceful : Bool)
    (g : Gui) (port : Nat) (hfree : free port = true) :
    ((Gui.start_server free true graceful true g port).2.1.manager.process =
      some { port := port, alive := true, graceful := graceful, exitCode := 0 })
  ∧ ((Gui.start_server free true graceful true g port).2.1.status =
      Status.Running port)
  ∧ ((Gui.start_server free true graceful true g port).1 = none) := by
  simp [Gui.start_server, ServerManager.start_server, Utils.is_port_free, hfree]

theorem C2_amended_witness :
    ((Gui.start_server (fun _ => true) true true true
        { manager := { process := none }, logger_thread := none,
          server_running := false, status := Status.Stopped } 8080).2.1.manager.process =
      some { port := 8080, alive := true, graceful := true, exitCode := 0 })
  ∧ ((Gui.start_server (fun _ => true) true true true
        { manager := { process := none }, logger_thread := none,
          server_running := false, status := Status.Stopped } 8080).2.1.status =
      Status.Running 8080)
  ∧ ((Gui.start_server (fun _ => true) true true true
        { manager := { process := none }, logger_thread := none,
          server_running := false, status := Status.Stopped } 8080).1 = none) :=
  C2_amended_exact_port_when_free (fun _ => true) true
    { manager := { process := none }, logger_thread := none,
      server_running := false, status := Status.Stopped } 8080 rfl

/-- C3 counterexample: a running child that ignores the terminate signal
makes `ServerManager.stop_server` raise `TimeoutExpired` out of the method
(the `wait(timeout=2)` call is not guarded), with no `kill` ever issued and
the process handle left in place — contradicting "never raises", "forcibly
kills" and "handle cleared". -/
theorem C3_cex_stop_raises_without_kill :
    ServerManager.stop_server
        { process :=
            some { port := 8000, alive := true, graceful := false, exitCode := 0 } } =
      (some "TimeoutExpired",
       { process :=
           some { port := 8000, alive := true, graceful := false, exitCode := 0 } },
       [Act.terminate]) := by decide

/-- C3 amended: the monolithic `_stop_server` matches the claim — it
terminates the child, escalates to `kill` exactly when the child is alive
and ignores the grace period, never issues `kill` on a child that exits
gracefully, never raises (total function; every exception is caught), and
leaves status `Stopped` with the running flag false and the handle cleared.
`ServerManager.stop_server`, by contrast, raises `TimeoutExpired` without
killing when the child outlives the 2-second wait. -/
theorem C3_amended_graceful_stop_with_kill (g : HGui) (p : Proc)
    (hrun : g.server_running = true) (hp : g.process = some p) :
    ((HFS.stop_server g).1.status = Status.Stopped)
  ∧ ((HFS.stop_server g).1.process = none)
  ∧ ((HFS.stop_server g).1.server_running = false)
  ∧ (p.alive = true → p.graceful = false → Act.kill ∈ (HFS.stop_server g).2)
  ∧ (p.graceful = true → Act.kill ∉ (HFS.stop_server g).2) := by
  rcases p with ⟨pport, palive, pgrace, pexit⟩
  cases hl : g.logger_thread <;> cases palive <;> cases pgrace <;>
    simp [HFS.stop_server, hrun, hp, hl]

theorem C3_amended_witness :
    ((HFS.stop_server
        { process :=
            some { port := 8000, alive := true, graceful := false, exitCode := 0 },
          logger_thread := some { stopRequested := false },
          server_running := true, status := Status.Running 8000 }).1.status =
      Status.Stopped)
  ∧ ((HFS.stop_server
        { process :=
            some { port := 8000, alive := true, graceful := false, exitCode := 0 },
          logger_thread := some { stopRequested := false },
          server_running := true, status := Status.Running 8000 }).1.process = none)
  ∧ ((HFS.stop_server
        { process :=
            some { port := 8000, alive := true, graceful := false, exitCode := 0 },
          logger_thread := some { stopRequested := false },
          server_running := true, status := Status.Running 8000 }).1.server_running =
      false)
  ∧ ((true : Bool) = true → (false : Bool) = false →
      Act.kill ∈ (HFS.stop_server
        { process :=
            some { port := 8000, alive := true, graceful := false, exitCode := 0 },
          logger_thread := some { stopRequested := false },
          server_running := true, status := Status.Running 8000 }).2)
  ∧ ((false : Bool) = true →
      Act.kill ∉ (HFS.stop_server
        { process :=
            some { port := 8000, alive := true, graceful := false, exitCode := 0 },
          logger_thread := some { stopRequested := false },
          server_running := true, status := Status.Running 8000 }).2) :=
  C3_amended_graceful_stop_with_kill
    { process := some { port := 8000, alive := true, graceful := false, exitCode := 0 },
      logger_thread := some { stopRequested := false },
      server_running := true, status := Status.Running 8000 }
    { port := 8000, alive := true, graceful := false, exitCode := 0 } rfl rfl

/-- C4 counterexample: `ServerManager.start_server` has no guard against an
already-running session — called while a process handle (port 7) is held,
it spawns a new child and overwrites the handle with a different process,
instead of rejecting the call. -/
theorem C4_cex_second_start_overwrites :
    (ServerManager.start_server (fun _ => true) true true
        { process := some { port := 7, alive := true, graceful := true, exitCode := 0 } }
        8080 =
      Except.ok
        ({ process :=
             some { port := 8080, alive := true, graceful := true, exitCode := 0 } },
         some { port := 8080, alive := true, graceful := true, exitCode := 0 },
         [Act.spawn 8080]))
  ∧ (some ({ port := 8080, alive := true, graceful := true, exitCode := 0 } : Proc) ≠
      some ({ port := 7, alive := true, graceful := true, exitCode := 0 } : Proc)) :=
  ⟨rfl, by decide⟩

/-- C4 amended: the monolithic `_start_server` rejects a second start while
a session is running — the state, including the existing process handle, is
returned untouched and no action (in particular no spawn) is performed;
`ServerManager.start_server` itself has no such guard and a second call
spawns a new process and overwrites the existing handle (only the GUI's
button disabling prevents this in practice). -/
theorem C4_amended_monolithic_guard (free : Nat → Bool)
    (spawnOk userYes graceful folderValid : Bool) (g : HGui) (port : Nat)
    (h : g.server_running = true) :
    HFS.start_server free spawnOk userYes graceful folderValid g port = (g, []) := by
  simp [HFS.start_server, h]

theorem C4_amended_witness :
    HFS.start_server (fun _ => true) true true true true
        { process := some { port := 7, alive := true, graceful := true, exitCode := 0 },
          logger_thread := some { stopRequested := false },
          server_running := true, status := Status.Running 7 } 8080 =
      ({ process := some { port := 7, alive := true, graceful := true, exitCode := 0 },
         logger_thread := some { stopRequested := false },
         server_running := true, status := Status.Running 7 }, []) :=
  C4_amended_monolithic_guard (fun _ => true) true true true true
    { process := some { port := 7, alive := true, graceful := true, exitCode := 0 },
      logger_thread := some { stopRequested := false },
      server_running := true, status := Status.Running 7 } 8080 rfl

/-- C5 counterexample: in the modular draft the drain tick
(`gui._drain_log_queue`) performs NO liveness check — with the session
marked running and the child already exited (exit code 1), draining leaves
the status `Running`, keeps the running flag, and emits no `SYS` event and
no teardown action at all. -/
theorem C5_cex_modular_drain_no_liveness :
    ((Gui.drain_log_queue
        { manager :=
            { process :=
                some { port := 8123, alive := false, graceful := true, exitCode := 1 } },
          logger_thread := none, server_running := true,
          status := Status.Running 8123 } []).1.status = Status.Running 8123)
  ∧ ((Gui.drain_log_queue
        { manager :=
            { process :=
                some { port := 8123, alive := false, graceful := true, exitCode := 1 } },
          logger_thread := none, server_running := true,
          status := Status.Running 8123 } []).1.server_running = true)
  ∧ ((Gui.drain_log_queue
        { manager :=
            { process :=
                some { port := 8123, alive := false, graceful := true, exitCode := 1 } },
          logger_thread := none, server_running := true,
          status := Status.Running 8123 } []).2 = []) := by decide

/-- C5 amended: the monolithic `_drain_log_queue` behaves as the claim
states — when the session is marked running and the child has exited, the
drain tick first relays the queued events in order, then logs a `SYS` event
carrying the child's exit code and drives the same `_stop_server` teardown
as a normal stop, leaving status `Stopped` (the method is total, so nothing
is thrown into the polling loop); the modular draft's drain performs no
liveness check at all. -/
theorem C5_amended_liveness_teardown (g : HGui) (q : List Event) (p : Proc)
    (hrun : g.server_running = true) (hp : g.process = some p)
    (hdead : p.alive = false) :
    ((HFS.drain_log_queue g q).1.status = Status.Stopped)
  ∧ ((HFS.drain_log_queue g q).1.server_running = false)
  ∧ ((HFS.drain_log_queue g q).1.process = none)
  ∧ (Act.log ("[SYS] Server exited with code " ++ toString p.exitCode) ∈
      (HFS.drain_log_queue g q).2)
  ∧ (∃ rest, (HFS.drain_log_queue g q).2 =
      q.map (fun e => Act.log (fmtEvent e)) ++ rest) := by
  refine ⟨?_, ?_, ?_, ?_, ?_⟩ <;>
    simp [HFS.drain_log_queue, HFS.stop_server, hrun, hp, hdead]

theorem C5_amended_witness :
    ((HFS.drain_log_queue
        { process :=
            some { port := 8123, alive := false, graceful := true, exitCode := 1 },
          logger_thread := some { stopRequested := false },
          server_running := true, status := Status.Running 8123 }
        [(Tag.OUT, "last line")]).1.status = Status.Stopped)
  ∧ ((HFS.drain_log_queue
        { process :=
            some { port := 8123, alive := false, graceful := true, exitCode := 1 },
          logger_thread := some { stopRequested := false },
          server_running := true, status := Status.Running 8123 }
        [(Tag.OUT, "last line")]).1.server_running = false)
  ∧ ((HFS.drain_log_queue
        { process :=
            some { port := 8123, alive := false, graceful := true, exitCode := 1 },
          logger_thread := some { stopRequested := false },
          server_running := true, status := Status.Running 8123 }
        [(Tag.OUT, "last line")]).1.process = none)
  ∧ (Act.log ("[SYS] Server exited with code " ++
        toString ({ port := 8123, alive := false, graceful := true, exitCode := 1 } : Proc).exitCode) ∈
      (HFS.drain_log_queue
        { process :=
            some { port := 8123, alive := false, graceful := true, exitCode := 1 },
          logger_thread := some { stopRequested := false },
          server_running := true, status := Status.Running 8123 }
        [(Tag.OUT, "last line")]).2)
  ∧ (∃ rest, (HFS.drain_log_queue
        { process :=
            some { port := 8123, alive := false, graceful := true, exitCode := 1 },
          logger_thread := some { stopRequested := false },
          server_running := true, status := Status.Running 8123 }
        [(Tag.OUT, "last line")]).2 =
      [(Tag.OUT, "last line")].map (fun e => Act.log (fmtEvent e)) ++ rest) :=
  C5_amended_liveness_teardown
    { process := some { port := 8123, alive := false, graceful := true, exitCode := 1 },
      logger_thread := some { stopRequested := false },
      server_running := true, status := Status.Running 8123 }
    [(Tag.OUT, "last line")]
    { port := 8123, alive := false, graceful := true, exitCode := 1 } rfl rfl rfl

/-- C6 counterexample: the modular draft's stop path
(`gui._stop_server`) discards the session's process handle without ever
signalling the relay to stop or joining it — after a successful stop the
manager's handle is gone while the logger thread handle is untouched, its
stop flag still unset, and the action trace contains neither a stop signal
nor a join of the relay. -/
theorem C6_cex_modular_stop_ignores_relay :
    ((Gui.stop_server
        { manager :=
            { process :=
                some { port := 8000, alive := true, graceful := true, exitCode := 0 } },
          logger_thread := some { stopRequested := false },
          server_running := true, status := Status.Running 8000 }).1 = none)
  ∧ ((Gui.stop_server
        { manager :=
            { process :=
                some { port := 8000, alive := true, graceful := true, exitCode := 0 } },
          logger_thread := some { stopRequested := false },
          server_running := true, status := Status.Running 8000 }).2.1.manager.process =
      none)
  ∧ ((Gui.stop_server
        { manager :=
            { process :=
                some { port := 8000, alive := true, graceful := true, exitCode := 0 } },
          logger_thread := some { stopRequested := false },
          server_running := true, status := Status.Running 8000 }).2.1.logger_thread =
      some { stopRequested := false })
  ∧ (Act.loggerStop ∉
      (Gui.stop_server
        { manager :=
            { process :=
                some { port := 8000, alive := true, graceful := true, exitCode := 0 } },
          logger_thread := some { stopRequested := false },
          server_running := true, status := Status.Running 8000 }).2.2)
  ∧ (Act.loggerJoin ∉
      (Gui.stop_server
        { manager :=
            { process :=
                some { port := 8000, alive := true, graceful := true, exitCode := 0 } },
          logger_thread := some { stopRequested := false },
          server_running := true, status := Status.Running 8000 }).2.2) := by decide

/-- C6 amended: in the monolithic draft the relay's lifetime is bounded by
the session as claimed — on every stop of a running session that holds a
relay handle, the trace signals the relay to stop, then joins it (with a
bound), strictly before the process handle is discarded, and both handles
end cleared; and the relay is only ever started after a confirmed spawn
(every trace containing a relay start contains a spawn before it).  The
modular draft's `gui._stop_server` violates this: it discards the process
handle without signalling or joining the relay. -/
theorem C6_amended_relay_bounded_by_session (gh : HGui) (free : Nat → Bool)
    (spawnOk userYes graceful folderValid : Bool) (g2 g2' : HGui)
    (port : Nat) (tr : List Act) :
    (gh.server_running = true → gh.logger_thread.isSome = true →
      List.Sublist [Act.loggerStop, Act.loggerJoin, Act.clearProcess, Act.clearLogger]
          (HFS.stop_server gh).2
      ∧ (HFS.stop_server gh).1.logger_thread = none
      ∧ (HFS.stop_server gh).1.process = none)
  ∧ (HFS.start_server free spawnOk userYes graceful folderValid g2 port = (g2', tr) →
      Act.loggerStart ∈ tr →
      ∃ pp, List.Sublist [Act.spawn pp, Act.loggerStart] tr) := by
  constructor
  · intro h1 h2
    rcases hl : gh.logger_thread with _ | l
    · rw [hl] at h2; simp at h2
    · rcases hp : gh.process with _ | p
      · refine ⟨?_, by simp [HFS.stop_server, h1], by simp [HFS.stop_server, h1]⟩
        simp [HFS.stop_server, h1, hl, hp]
      · rcases p with ⟨pport, palive, pgrace, pexit⟩
        refine ⟨?_, by simp [HFS.stop_server, h1], by simp [HFS.stop_server, h1]⟩
        cases palive <;> cases pgrace <;>
          first
          | (simp [HFS.stop_server, h1, hl, hp]; decide)
          | simp [HFS.stop_server, h1, hl, hp]
  · intro heq hmem
    unfold HFS.start_server at heq
    by_cases h1 : g2.server_running = true
    · simp only [h1, if_true] at heq
      cases heq
      simp at hmem
    · replace h1 : g2.server_running = false := by
        cases hb : g2.server_running
        · rfl
        · exact absurd hb h1
      by_cases h2 : folderValid = false
      · simp only [h1, h2, Bool.false_eq_true, if_false, if_true] at heq
        cases heq
        simp at hmem
      · replace h2 : folderValid = true := by
          cases hb : folderValid
          · exact absurd hb h2
          · rfl
        by_cases h3 : free port = true
        · by_cases h4 : spawnOk = true
          · simp only [h1, h2, h3, h4, Bool.false_eq_true, Bool.true_eq_false,
              if_false, if_true] at heq
            cases heq
            exact ⟨port,
              List.Sublist.cons₂ _ (List.Sublist.cons _ (List.Sublist.refl _))⟩
          · replace h4 : spawnOk = false := by
              cases hb : spawnOk
              · rfl
              · exact absurd hb h4
            simp only [h1, h2, h3, h4, Bool.false_eq_true, Bool.true_eq_false,
              if_false, if_true] at heq
            cases heq
            simp at hmem
        · replace h3 : free port = false := by
            cases hb : free port
            · rfl
            · exact absurd hb h3
          by_cases h5 : userYes = true
          · cases hf : HFS.find_free_port free 8000 1000 with
            | ok fp =>
                by_cases h4 : spawnOk = true
                · simp only [h1, h2, h3, h5, h4, hf, Bool.false_eq_true,
                    Bool.true_eq_false, if_false, if_true] at heq
                  cases heq
                  exact ⟨fp,
                    List.Sublist.cons₂ _ (List.Sublist.cons _ (List.Sublist.refl _))⟩
                · replace h4 : spawnOk = false := by
                    cases hb : spawnOk
                    · rfl
                    · exact absurd hb h4
                  simp only [h1, h2, h3, h5, h4, hf, Bool.false_eq_true,
                    Bool.true_eq_false, if_false, if_true] at heq
                  cases heq
                  simp at hmem
            | error msg =>
                simp only [h1, h2, h3, h5, hf, Bool.false_eq_true,
                  Bool.true_eq_false, if_false, if_true] at heq
                cases heq
                simp at hmem
          · replace h5 : userYes = false := by
              cases hb : userYes
              · rfl
              · exact absurd hb h5
            simp only [h1, h2, h3, h5, Bool.false_eq_true, Bool.true_eq_false,
              if_false, if_true] at heq
            cases heq
            simp at hmem

theorem C6_amended_witness :
    (List.Sublist [Act.loggerStop, Act.loggerJoin, Act.clearProcess, Act.clearLogger]
        (HFS.stop_server
          { process :=
              some { port := 8000, alive := true, graceful := true, exitCode := 0 },
            logger_thread := some { stopRequested := false },
            server_running := true, status := Status.Running 8000 }).2
      ∧ (HFS.stop_server
          { process :=
              some { port := 8000, alive := true, graceful := true, exitCode := 0 },
            logger_thread := some { stopRequested := false },
            server_running := true, status := Status.Running 8000 }).1.logger_thread =
        none
      ∧ (HFS.stop_server
          { process :=
              some { port := 8000, alive := true, graceful := true, exitCode := 0 },
            logger_thread := some { stopRequested := false },
            server_running := true, status := Status.Running 8000 }).1.process = none)
  ∧ (∃ pp, List.Sublist [Act.spawn pp, Act.loggerStart]
      [Act.spawn 8080, Act.log "[SYS] Server started with PID", Act.loggerStart]) :=
  ⟨(C6_amended_relay_bounded_by_session
      { process := some { port := 8000, alive := true, graceful := true, exitCode := 0 },
        logger_thread := some { stopRequested := false },
        server_running := true, status := Status.Running 8000 }
      (fun _ => true) true true true true
      { process := none, logger_thread := none, server_running := false,
        status := Status.Stopped }
      { process := some { port := 8080, alive := true, graceful := true, exitCode := 0 },
        logger_thread := some { stopRequested := false },
        server_running := true, status := Status.Running 8080 }
      8080
      [Act.spawn 8080, Act.log "[SYS] Server started with PID", Act.loggerStart]).1
      rfl rfl,
   (C6_amended_relay_bounded_by_session
      { process := some { port := 8000, alive := true, graceful := true, exitCode := 0 },
        logger_thread := some { stopRequested := false },
        server_running := true, status := Status.Running 8000 }
      (fun _ => true) true true true true
      { process := none, logger_thread := none, server_running := false,
        status := Status.Stopped }
      { process := some { port := 8080, alive := true, graceful := true, exitCode := 0 },
        logger_thread := some { stopRequested := false },
        server_running := true, status := Status.Running 8080 }
      8080
      [Act.spawn 8080, Act.log "[SYS] Server started with PID", Act.loggerStart]).2
      (by decide) (by decide)⟩

/-- C9 counterexample: with a child that ignores the terminate signal,
the first `ServerManager.stop_server` call raises `TimeoutExpired` (not the
claimed error-free behaviour) and leaves the handle in place, so the second
call does NOT observe a cleared session — it executes the teardown
(terminate) again instead of doing nothing. -/
theorem C9_cex_double_stop_reruns_teardown :
    ((ServerManager.stop_server
        { process :=
            some { port := 8000, alive := true, graceful := false, exitCode := 0 } }).1 =
      some "TimeoutExpired")
  ∧ ((ServerManager.stop_server
        (ServerManager.stop_server
          { process :=
              some
                { port := 8000, alive := true, graceful := false,
                  exitCode := 0 } }).2.1).2.2 = [Act.terminate])
  ∧ ((ServerManager.stop_server
        (ServerManager.stop_server
          { process :=
              some
                { port := 8000, alive := true, graceful := false,
                  exitCode := 0 } }).2.1).1 = some "TimeoutExpired") := by decide

/-- C9 amended: stop is a no-op without error whenever no session is active;
after a stop that completed without a timeout, a second
`ServerManager.stop_server` observes the cleared handle and does nothing;
and the monolithic `_stop_server` is unconditionally idempotent — a second
invocation right after any first one leaves the state unchanged and
performs no action.  Only when the child outlives the ServerManager's
2-second wait does the first call raise and leave the handle set, making
the repeated call run the teardown again. -/
theorem C9_amended_stop_idempotent (sm sm2 : ServerManager) (g : HGui) :
    (sm.process = none → ServerManager.stop_server sm = (none, sm, []))
  ∧ ((ServerManager.stop_server sm2).1 = none →
      ServerManager.stop_server (ServerManager.stop_server sm2).2.1 =
        (none, (ServerManager.stop_server sm2).2.1, []))
  ∧ (HFS.stop_server (HFS.stop_server g).1 = ((HFS.stop_server g).1, [])) := by
  refine ⟨?_, ?_, ?_⟩
  · intro h
    simp [ServerManager.stop_server, h]
  · intro h
    rcases hp : sm2.process with _ | p
    · simp [ServerManager.stop_server, hp]
    · by_cases hg : (!p.alive || p.graceful) = true
      · simp [ServerManager.stop_server, hp, hg]
      · exfalso
        rw [ServerManager.stop_server, hp] at h
        simp [hg] at h
  · by_cases hr : g.server_running = true
    · have h1 : (HFS.stop_server g).1.server_running = false := by
        simp [HFS.stop_server, hr]
      conv_lhs => rw [HFS.stop_server]
      rw [h1]
      simp
    · replace hr : g.server_running = false := by
        cases hb : g.server_running
        · rfl
        · exact absurd hb hr
      have h1 : (HFS.stop_server g).1 = g := by
        simp [HFS.stop_server, hr]
      rw [h1]
      simp [HFS.stop_server, hr]

theorem C9_amended_witness :
    ServerManager.stop_server { process := none } =
      (none, { process := none }, []) :=
  (C9_amended_stop_idempotent { process := none } { process := none }
    { process := none, logger_thread := none, server_running := false,
      status := Status.Stopped }).1 rfl
